import Mathlib

/-!
# Verification of git2jss against its specification

Shallow embedding of the git2jss synchronisation tool (files
`git2jss/vcs.py` and `git2jss/processors.py`).  Python strings are
modelled as `List Char`; the Python library functions the code calls
(`os.path.join`, `os.path.normpath`, `os.path.abspath`, `str.split`,
`str.strip`, `str.find`, `string.Template.safe_substitute`,
`base64.b64encode`) are embedded faithfully following their CPython
semantics, because the behaviour of the repository's functions is
defined in terms of them.  External effects (subprocess output, the
filesystem, the JSS HTTP client) are supplied by explicit "world"
records so that every function is a pure, executable definition.
-/

set_option maxRecDepth 10000

deriving instance DecidableEq for Except

/-- A Python `str`, modelled as its sequence of characters. -/
abbrev PyStr := List Char

namespace PyLib

/-- Characters considered whitespace by Python's `str.strip()`. -/
def pyIsSpace (c : Char) : Bool :=
  c = ' ' ∨ c = '\t' ∨ c = '\n' ∨ c = '\r' ∨ c = '\x0b' ∨ c = '\x0c'

/-- Python `s.strip()`: remove whitespace from both ends. -/
def pyStrip (s : PyStr) : PyStr :=
  ((s.dropWhile pyIsSpace).reverse.dropWhile pyIsSpace).reverse

/-- Python `s.split(sep)` for a one-character separator: split at every
occurrence, never collapsing; the result is always non-empty. -/
def pySplit (s : PyStr) (sep : Char) : List PyStr :=
  match s with
  | [] => [[]]
  | c :: cs =>
    if c = sep then [] :: pySplit cs sep
    else
      match pySplit cs sep with
      | [] => [[c]]
      | h :: t => (c :: h) :: t

/-- Last element of a list with a default (models Python `lst[-1:][0]`
on the never-empty results of `str.split`). -/
def lastD (l : List PyStr) (d : PyStr) : PyStr := l.getLastD d

/-- Python `a.find(b)`: index of the first occurrence of `b` in `a`, or
`-1` when absent. -/
def pyFind (a b : PyStr) : Int :=
  pyFindAux a b 0
where
  pyFindAux : PyStr → PyStr → Nat → Int
    | s, needle, i =>
      if needle.isPrefixOf s then (i : Int)
      else
        match s with
        | [] => -1
        | _ :: cs => pyFindAux cs needle (i + 1)

/-- Truthiness of a Python integer: every value except `0` is truthy. -/
def intTruthy (n : Int) : Bool := n ≠ 0

/-- Truthiness of an optional Python string (`None` and `''` are falsy). -/
def strOptTruthy (o : Option PyStr) : Bool :=
  match o with
  | none => false
  | some s => s ≠ []

/-- Python `a or b` over optional strings: `a` when truthy, else `b`. -/
def pyOr (a b : Option PyStr) : Option PyStr :=
  if strOptTruthy a then a else b

/-- Python `str(x)` for an optional string: `None` prints as `"None"`. -/
def pyStrOfOpt (o : Option PyStr) : PyStr :=
  match o with
  | none => "None".data
  | some s => s

/-- Python `s.endswith(t)` (used to model `re.search(r'\.git$', s)`). -/
def pyEndsWith (s t : PyStr) : Bool := t.isSuffixOf s

end PyLib

namespace OsPath

open PyLib

/-- `posixpath.join(a, b)` for two components. -/
def pjoin (a b : PyStr) : PyStr :=
  if b.head? = some '/' then b
  else if a = [] ∨ a.getLast? = some '/' then a ++ b
  else a ++ '/' :: b

/-- `posixpath.isabs`. -/
def isabs (p : PyStr) : Bool := p.head? = some '/'

/-- Number of initial slashes kept by `posixpath.normpath`
(`path.startswith('/')` tests): paths beginning with exactly two
slashes keep both (POSIX allows `//` to be special); one or
three-or-more collapse to one. -/
def initialSlashes (p : PyStr) : Nat :=
  if List.isPrefixOf ['/'] p then
    if List.isPrefixOf ['/', '/'] p ∧ ¬ List.isPrefixOf ['/', '/', '/'] p then 2
    else 1
  else 0

/-- The component-processing loop of `posixpath.normpath`: `ini` records
whether the path is absolute, `acc` is the list of kept components. -/
def normComps (ini : Bool) (acc : List PyStr) : List PyStr → List PyStr
  | [] => acc
  | comp :: rest =>
    if comp = [] ∨ comp = ['.'] then normComps ini acc rest
    else if comp ≠ ['.', '.'] ∨ (¬ ini ∧ acc = []) ∨ acc.getLastD [] = ['.', '.'] then
      normComps ini (acc ++ [comp]) rest
    else if acc ≠ [] then normComps ini acc.dropLast rest
    else normComps ini acc rest

/-- Join components back with `/` (Python `'/'.join`). -/
def slashJoin : List PyStr → PyStr
  | [] => []
  | [c] => c
  | c :: cs => c ++ '/' :: slashJoin cs

/-- `posixpath.normpath`. -/
def normpath (p : PyStr) : PyStr :=
  if p = [] then ['.']
  else
    let ini := initialSlashes p
    let comps := pySplit p '/'
    let kept := normComps (ini ≠ 0) [] comps
    let joined := List.replicate ini '/' ++ slashJoin kept
    if joined = [] then ['.'] else joined

/-- `posixpath.abspath` relative to a current working directory `cwd`. -/
def abspath (cwd p : PyStr) : PyStr :=
  if isabs p then normpath p else normpath (pjoin cwd p)

/-- `posixpath.split(p)[1]`: everything after the last slash. -/
def basename (p : PyStr) : PyStr := lastD (pySplit p '/') []

/-- Proof helper: the prefix `posixpath.join(a, b)` effectively places
before a relative `b` — `a` itself when it is empty or already ends
with a slash, otherwise `a` extended by a slash. -/
def sepExtend (a : PyStr) : PyStr :=
  if a = [] ∨ a.getLast? = some '/' then a else a ++ ['/']

/-- Proof helper: strings that are empty or end with a slash; appending
a relative path after such a prefix is what `normpath` sees. -/
def SepEnded (q : PyStr) : Prop := q = [] ∨ ∃ s, q = s ++ ['/']

end OsPath

/-- An open Python text file handle: contents plus current read position.
`read()` returns everything from the position onwards and leaves the
position at end-of-file. -/
structure Handle where
  content : PyStr
  pos : Nat
deriving DecidableEq, Repr

/-- `handle.read()`: the text from the current position, and the handle
afterwards (position at end-of-file). -/
def hRead (h : Handle) : PyStr × Handle :=
  (h.content.drop h.pos, ⟨h.content, h.content.length⟩)

namespace Vcs

open PyLib OsPath

/-- The exception classes of `git2jss/vcs.py` (plus the Python
`AttributeError` that `__init__` can hit when the swallowed
remote-discovery failure leaves `remote_name` unassigned).  Message
payloads are elided. -/
inductive VcsErr
  | parameterError
  | notAGitRepo
  | tooManyRemotes
  | noRemote
  | refNotFound
  | git2jssError
  | fileNotFound
  | attributeError
deriving DecidableEq, Repr

/-- `subprocess.CalledProcessError`: carries the command output that the
`except` clause in `GitRepo.__init__` inspects. -/
structure CmdErr where
  output : PyStr
deriving DecidableEq, Repr

/-- The external world a `GitRepo` interacts with: outputs of the git
subprocess invocations, the temp-directory name, and the filesystem. -/
structure GitWorld where
  cwd : PyStr
  mkdtempResult : PyStr
  gitRemoteOut : Except CmdErr PyStr
  gitConfigUrl : PyStr
  lsRemoteOut : PyStr
  cloneResult : Except CmdErr Unit
  isFile : PyStr → Bool
  fileText : PyStr → PyStr
  logHash : PyStr → PyStr
  logDate : PyStr → PyStr
  logLog : PyStr → PyStr

/-- The external commands `GitRepo.__init__` can run, in order, recorded
as an event trace. -/
inductive GitEvent
  | mkdtemp
  | gitRemote
  | gitConfig
  | lsRemote
  | clone
deriving DecidableEq, Repr

/-- The fields a successfully constructed `GitRepo` carries. -/
structure RepoState where
  tag : Option PyStr
  branch : Option PyStr
  ref : PyStr
  remoteName : PyStr
  remoteUrl : PyStr
  tmpDir : PyStr
deriving DecidableEq, Repr

/-- `GitRepo._find_remote_name`: parse the output of `git remote`; more
than one line is `TooManyRemotesError`, an empty listing is
`NoRemoteError`.  A failing command surfaces as `CalledProcessError`
(left summand), handled by the caller's `except` clause. -/
def findRemoteName (w : GitWorld) : Except (CmdErr ⊕ VcsErr) PyStr :=
  match w.gitRemoteOut with
  | .error e => .error (.inl e)
  | .ok out =>
    let remotes := pySplit (pyStrip out) '\n'
    if 1 < remotes.length then .error (.inr .tooManyRemotes)
    else if remotes.length < 1 ∨ remotes.headD [] = [] then .error (.inr .noRemote)
    else .ok (remotes.headD [])

/-- `GitRepo._find_remote_url`: `git config --get remote.<name>.url`,
stripped, with a trailing `.git` removed (`re.search(r'\.git$', url)`
then `url[:-4]`). -/
def findRemoteUrl (w : GitWorld) : PyStr :=
  let url := pyStrip w.gitConfigUrl
  if pyEndsWith url ".git".data then url.take (url.length - 4) else url

/-- The parsing in `GitRepo._has_ref_on_remote`: for every line of the
`git ls-remote --refs` output, take the last tab-separated field and its
last `/`-separated segment. -/
def refsOf (out : PyStr) : List PyStr :=
  (pySplit out '\n').map (fun t => lastD (pySplit (lastD (pySplit t '\t') []) '/') [])

/-- `GitRepo._has_ref_on_remote`. -/
def hasRefOnRemote (w : GitWorld) (rName : PyStr) : Bool :=
  rName ∈ refsOf w.lsRemoteOut

/-- `GitRepo.__init__`: the construction sequence of `vcs.GitRepo`,
returning the constructed state or the exception raised, together with
the trace of external commands invoked.  Mirrors the source line by
line, including the Python truthiness tests (`not (tag or branch)`), the
`err.output.find('Not a git repository')` truthiness test in the
`except` clause, and the fall-through of that `except` clause (which
leaves `remote_name` unassigned, so the subsequent attribute access
raises `AttributeError`). -/
def gitRepoInit (tag branch : Option PyStr) (w : GitWorld) :
    Except VcsErr RepoState × List GitEvent :=
  if ¬ (strOptTruthy tag ∨ strOptTruthy branch) then
    (.error .parameterError, [])
  else
    let ref := (pyOr tag branch).getD []
    let tmpDir := w.mkdtempResult
    let tr1 := [GitEvent.mkdtemp, GitEvent.gitRemote]
    match findRemoteName w with
    | .error (.inl e) =>
      if intTruthy (pyFind e.output "Not a git repository".data) then
        (.error .notAGitRepo, tr1)
      else
        (.error .attributeError, tr1)
    | .error (.inr ve) => (.error ve, tr1)
    | .ok rname =>
      let url := findRemoteUrl w
      let tr2 := tr1 ++ [GitEvent.gitConfig, GitEvent.lsRemote]
      if hasRefOnRemote w ref then
        let tr3 := tr2 ++ [GitEvent.clone]
        match w.cloneResult with
        | .error _ => (.error .git2jssError, tr3)
        | .ok _ =>
          (.ok { tag := tag, branch := branch, ref := ref, remoteName := rname,
                 remoteUrl := url, tmpDir := tmpDir }, tr3)
      else (.error .refNotFound, tr2)

/-- `GitRepo.has_file`: join the name onto the temp directory, resolve
to an absolute path, and test for a regular file. -/
def has_file (cwd : PyStr) (isFile : PyStr → Bool) (tmpDir filename : PyStr) : Bool :=
  isFile (abspath cwd (pjoin tmpDir filename))

/-- `GitRepo.path_to_file`: the absolute path of the joined name, or
`FileNotFoundError`. -/
def path_to_file (cwd : PyStr) (isFile : PyStr → Bool) (tmpDir filename : PyStr) :
    Except VcsErr PyStr :=
  let path := pjoin tmpDir filename
  if has_file cwd isFile tmpDir filename then .ok (abspath cwd path)
  else .error .fileNotFound

/-- `GitRepo.get_file`: open the resolved path for reading. -/
def get_file (cwd : PyStr) (isFile : PyStr → Bool) (fileText : PyStr → PyStr)
    (tmpDir filename : PyStr) : Except VcsErr Handle :=
  match path_to_file cwd isFile tmpDir filename with
  | .ok p => .ok ⟨fileText p, 0⟩
  | .error e => .error e

/-- `GitRepo._format_commit`: `"<hash> on branch: <branch>"`; a `None`
branch prints as the string `None`. -/
def formatCommit (w : GitWorld) (branch : Option PyStr) (filename : PyStr) : PyStr :=
  pyStrip (w.logHash filename) ++ " on branch: ".data ++ pyStrOfOpt branch

/-- `GitRepo.file_info`: the metadata dictionary for a file, or
`FileNotFoundError` when `has_file` is false. -/
def file_info (w : GitWorld) (st : RepoState) (filename : PyStr) :
    Except VcsErr (List (PyStr × PyStr)) :=
  if has_file w.cwd w.isFile st.tmpDir filename then
    .ok [("VERSION".data,
            if strOptTruthy st.tag then st.tag.getD []
            else formatCommit w st.branch filename),
         ("ORIGIN".data, st.remoteUrl),
         ("PATH".data, filename),
         ("DATE".data, pyStrip (w.logDate filename)),
         ("LOG".data, pyStrip (w.logLog filename))]
  else .error .fileNotFound

end Vcs

namespace Tmpl

open PyLib

/-- First character of a Python `string.Template` identifier:
`[_a-z]` with `re.IGNORECASE`. -/
def isIdentStart (c : Char) : Bool := c.isAlpha ∨ c = '_'

/-- Subsequent characters of an identifier: `[_a-z0-9]`, ignoring case. -/
def isIdentChar (c : Char) : Bool := c.isAlpha ∨ c.isDigit ∨ c = '_'

/-- The scanning loop of `Template.safe_substitute` for the `git2jss`
template subclass (delimiter `@@`, Python 2.7 `string.Template`
pattern): at each position, `@@@@` is an escaped delimiter, `@@name`
and `@@\x7bname\x7d` are looked up (left verbatim when the key is
unknown), a delimiter followed by anything else is the `invalid` group
and is left verbatim, and all other characters are copied.  The `Nat`
argument is recursion fuel; every step consumes at least one character,
so the wrapper `safeSub` below supplies the input length and the
out-of-fuel branch is unreachable (`safeSubFuel_congr` proves the
result does not depend on the fuel once it is at least the length). -/
def safeSubFuel (lookup : PyStr → Option PyStr) : Nat → PyStr → PyStr
  | _, [] => []
  | 0, s => s
  | fuel + 1, c :: cs =>
    if c = '@' then
      match cs with
      | [] => [c]
      | d :: ds =>
        if d = '@' then
          -- a delimiter `@@`; decide which alternative of the pattern matches
          match ds with
          | [] => ['@', '@']
          | e :: es =>
            if e = '@' then
              -- possibly the escaped group `@@@@`
              match es with
              | [] => '@' :: '@' :: safeSubFuel lookup fuel ds
              | f :: fs =>
                if f = '@' then '@' :: '@' :: safeSubFuel lookup fuel fs
                else '@' :: '@' :: safeSubFuel lookup fuel ds
            else if e = '{' then
              -- possibly the braced group
              match es with
              | [] => '@' :: '@' :: safeSubFuel lookup fuel ds
              | g :: gs =>
                if isIdentStart g then
                  let name := g :: gs.takeWhile isIdentChar
                  let rest1 := gs.dropWhile isIdentChar
                  if rest1.head? = some '}' then
                    match lookup name with
                    | some v => v ++ safeSubFuel lookup fuel rest1.tail
                    | none =>
                      '@' :: '@' :: '{' :: (name ++ '}' :: safeSubFuel lookup fuel rest1.tail)
                  else '@' :: '@' :: safeSubFuel lookup fuel ds
                else '@' :: '@' :: safeSubFuel lookup fuel ds
            else if isIdentStart e then
              -- the named group
              let name := e :: es.takeWhile isIdentChar
              let rest2 := es.dropWhile isIdentChar
              match lookup name with
              | some v => v ++ safeSubFuel lookup fuel rest2
              | none => '@' :: '@' :: (name ++ safeSubFuel lookup fuel rest2)
            else
              -- the invalid (empty) group: emit the delimiter verbatim
              '@' :: '@' :: safeSubFuel lookup fuel ds
        else c :: safeSubFuel lookup fuel cs
    else c :: safeSubFuel lookup fuel cs

/-- `safe_substitute` itself: scan the whole text. -/
def safeSub (lookup : PyStr → Option PyStr) (s : PyStr) : PyStr :=
  safeSubFuel lookup s.length s

/-- Whether a string is a complete `Template` identifier
(`[_a-z][_a-z0-9]*`, ignoring case). -/
def isIdentName (k : PyStr) : Bool :=
  match k with
  | [] => false
  | c :: cs => isIdentStart c && cs.all isIdentChar

/-- Lookup in an association list modelling a Python dict
(keys are unique in every dict we build). -/
def lookupAssoc (m : List (PyStr × PyStr)) (k : PyStr) : Option PyStr :=
  match m with
  | [] => none
  | (a, v) :: rest => if a = k then some v else lookupAssoc rest k

/-- The mapping `safe_substitute(data, **kwargs)` consults: Python 2.7's
`_multimap(kws, args[0])` tries the keyword arguments first, then the
positional mapping. -/
def combinedLookup (data kwargs : List (PyStr × PyStr)) (k : PyStr) : Option PyStr :=
  match lookupAssoc kwargs k with
  | some v => some v
  | none => lookupAssoc data k

/-- `processors.template_file`: read the whole handle and substitute
placeholders; returns the text and the handle as it is left behind. -/
def template_file (handle : Handle) (data kwargs : List (PyStr × PyStr)) :
    PyStr × Handle :=
  let (text, h2) := hRead handle
  (safeSub (combinedLookup data kwargs) text, h2)

end Tmpl

namespace Proc

open PyLib OsPath Vcs Tmpl

/-- UTF-8 encoding of one character (`str.encode('utf-8')`). -/
def utf8Bytes (c : Char) : List Nat :=
  let n := c.toNat
  if n < 0x80 then [n]
  else if n < 0x800 then [0xC0 + n / 0x40, 0x80 + n % 0x40]
  else if n < 0x10000 then
    [0xE0 + n / 0x1000, 0x80 + n / 0x40 % 0x40, 0x80 + n % 0x40]
  else
    [0xF0 + n / 0x40000, 0x80 + n / 0x1000 % 0x40, 0x80 + n / 0x40 % 0x40,
     0x80 + n % 0x40]

/-- The base64 alphabet. -/
def b64Char (n : Nat) : Char :=
  "ABCDEFGHIJKLMNOPQRSTUVWXYZabcdefghijklmnopqrstuvwxyz0123456789+/".data.getD n 'A'

/-- `base64.b64encode` over a byte sequence. -/
def b64encodeBytes : List Nat → PyStr
  | [] => []
  | [a] => [b64Char (a / 4), b64Char (a % 4 * 16), '=', '=']
  | [a, b] => [b64Char (a / 4), b64Char (a % 4 * 16 + b / 16), b64Char (b % 16 * 4), '=']
  | a :: b :: c :: rest =>
    b64Char (a / 4) :: b64Char (a % 4 * 16 + b / 16) :: b64Char (b % 16 * 4 + c / 64) ::
      b64Char (c % 64) :: b64encodeBytes rest

/-- `b64encode(text.encode('utf-8'))`. -/
def b64encode (s : PyStr) : PyStr := b64encodeBytes (s.map utf8Bytes).flatten

/-- The XML element tree of a JSS object, flattened to the (path, text)
pairs the code addresses via `find`. -/
abbrev ObjState := List (PyStr × PyStr)

/-- `obj.find(k).text`. -/
def findText (st : ObjState) (k : PyStr) : Option PyStr := lookupAssoc st k

/-- `obj.find(k).text = v`: update the first element named `k`; `none`
models the `AttributeError` raised when `find` returns `None`. -/
def setText (st : ObjState) (k v : PyStr) : Option ObjState :=
  match st with
  | [] => none
  | (a, t) :: rest =>
    if a = k then some ((a, v) :: rest)
    else
      match setText rest k v with
      | some r => some ((a, t) :: r)
      | none => none

/-- `obj.remove(obj.find(k))`: drop the first element named `k`; `none`
models the `ValueError` raised by `remove(None)` when it is absent. -/
def removeField (st : ObjState) (k : PyStr) : Option ObjState :=
  match st with
  | [] => none
  | (a, t) :: rest =>
    if a = k then some rest
    else
      match removeField rest k with
      | some r => some ((a, t) :: r)
      | none => none

/-- Exceptions surfacing from the processors module. -/
inductive ProcErr
  | targetNotFound
  | jssGetError (status : Nat)
  | vcsError (e : VcsErr)
  | attributeError
  | valueError
deriving DecidableEq, Repr

/-- A constructed `processors.JSSObject`. -/
structure SyncObject where
  sourceName : PyStr
  targetName : PyStr
  targetType : PyStr
  targetObject : ObjState
  sourceFile : Handle
deriving Repr

/-- `JSSObject.__init__`: resolve the source base name, default the
target name (Python `target or self.source_name`), load the target
object from the JSS (`_load_target_object`: a `JSSGetError` with
status 404 becomes `TargetNotFoundError`, anything else re-raises),
then load the source file from the repo (`_load_source_file`, which
propagates errors unchanged). `jssGet` stands for the external
`jss.JSS` client indexed by object type and name, returning the object
or the HTTP status code of a `JSSGetError`. -/
def jssObjectInit (w : GitWorld) (st : RepoState)
    (jssGet : PyStr → PyStr → Except Nat ObjState)
    (source_file : PyStr) (target : Option PyStr) (target_type : PyStr) :
    Except ProcErr SyncObject :=
  let sourceName := basename source_file
  let targetName := (pyOr target (some sourceName)).getD []
  match jssGet target_type targetName with
  | .error status =>
    if status = 404 then .error .targetNotFound
    else .error (.jssGetError status)
  | .ok obj =>
    match get_file w.cwd w.isFile w.fileText st.tmpDir sourceName with
    | .error e => .error (.vcsError e)
    | .ok h => .ok ⟨sourceName, targetName, target_type, obj, h⟩

/-- `Script.update(should_template)`: write the log into `notes`,
base64-encode the (optionally templated) source text into
`script_contents_encoded`, then remove `script_contents`.  Returns the
mutated object, the handle as left behind, and the exception raised (if
any) — mutations preceding an exception persist, as in Python. -/
def scriptUpdate (w : GitWorld) (st : RepoState) (user sourceName : PyStr)
    (obj : ObjState) (h : Handle) (shouldTemplate : Bool) :
    ObjState × Handle × Option ProcErr :=
  match file_info w st sourceName with
  | .error e => (obj, h, some (.vcsError e))
  | .ok info =>
    match setText obj "notes".data ((lookupAssoc info "LOG".data).getD []) with
    | none => (obj, h, some .attributeError)
    | some obj1 =>
      let (text, h2) := hRead h
      let payload :=
        if shouldTemplate then
          b64encode (safeSub (combinedLookup info [("USER".data, user)]) text)
        else b64encode text
      match setText obj1 "script_contents_encoded".data payload with
      | none => (obj1, h2, some .attributeError)
      | some obj2 =>
        match removeField obj2 "script_contents".data with
        | none => (obj2, h2, some .valueError)
        | some obj3 => (obj3, h2, none)

/-- The element path of the Mac script slot of a
`ComputerExtensionAttribute`. -/
def ceaScriptKey : PyStr := "input_type/[platform=\x27Mac\x27]/script".data

/-- `ComputerExtensionAttribute.update(should_template)`: write the log
into `description` and the (optionally templated) source text into the
Mac script element. -/
def ceaUpdate (w : GitWorld) (st : RepoState) (user sourceName : PyStr)
    (obj : ObjState) (h : Handle) (shouldTemplate : Bool) :
    ObjState × Handle × Option ProcErr :=
  match file_info w st sourceName with
  | .error e => (obj, h, some (.vcsError e))
  | .ok info =>
    match setText obj "description".data ((lookupAssoc info "LOG".data).getD []) with
    | none => (obj, h, some .attributeError)
    | some obj1 =>
      let (text, h2) := hRead h
      let output :=
        if shouldTemplate then safeSub (combinedLookup info [("USER".data, user)]) text
        else text
      match setText obj1 ceaScriptKey output with
      | none => (obj1, h2, some .attributeError)
      | some obj2 => (obj2, h2, none)

end Proc

namespace Demo

open PyLib Vcs Proc

/-- A well-behaved world: one remote named `origin`, a remote URL ending
in `.git`, a remote carrying tag `v1` and branch `master`, a clone that
succeeds, and a filesystem on which every lookup hits a file. -/
def demoWorld : GitWorld where
  cwd := "/home/user".data
  mkdtempResult := "/tmp/git2jss".data
  gitRemoteOut := .ok "origin\n".data
  gitConfigUrl := "https://example.com/repo.git\n".data
  lsRemoteOut := "h1\trefs/tags/v1\nh2\trefs/heads/master\n".data
  cloneResult := .ok ()
  isFile := fun _ => true
  fileText := fun _ => "hello world".data
  logHash := fun _ => "hash".data
  logDate := fun _ => "date".data
  logLog := fun _ => "log".data

/-- `demoWorld` with a failing `git remote` command whose error text does
not contain `Not a git repository`. -/
def otherFailureWorld : GitWorld :=
  { demoWorld with gitRemoteOut := .error ⟨"fatal: bad config line 1 in file .git/config".data⟩ }

/-- `demoWorld` with two remotes configured. -/
def twoRemotesWorld : GitWorld :=
  { demoWorld with gitRemoteOut := .ok "origin\nupstream\n".data }

/-- `demoWorld` with no remote configured (`git remote` prints nothing). -/
def noRemoteWorld : GitWorld :=
  { demoWorld with gitRemoteOut := .ok "".data }

/-- The repository state `gitRepoInit` builds from `demoWorld` with tag
`v1`. -/
def demoRepo : RepoState where
  tag := some "v1".data
  branch := none
  ref := "v1".data
  remoteName := "origin".data
  remoteUrl := "https://example.com/repo".data
  tmpDir := "/tmp/git2jss".data

/-- A freshly loaded `ComputerExtensionAttribute` object. -/
def demoCeaObj : ObjState :=
  [("description".data, ([] : PyStr)), (ceaScriptKey, "old".data)]

/-- A freshly loaded `Script` object. -/
def demoScriptObj : ObjState :=
  [("notes".data, ([] : PyStr)),
   ("script_contents_encoded".data, ([] : PyStr)),
   ("script_contents".data, "old".data)]

/-- A freshly opened handle on the demo source file. -/
def demoHandle : Handle := ⟨"hello world".data, 0⟩

/-- `demoCeaObj` after the first `update(True)` call: log written to the
description, file text written to the Mac script element. -/
def demoCeaObj1 : ObjState :=
  [("description".data, "log".data), (ceaScriptKey, "hello world".data)]

/-- `demoCeaObj` after the second `update(True)` call: the exhausted
handle reads as empty, so the Mac script element is emptied. -/
def demoCeaObj2 : ObjState :=
  [("description".data, "log".data), (ceaScriptKey, ([] : PyStr))]

/-- The demo handle after it has been read once. -/
def demoExhaustedHandle : Handle := ⟨"hello world".data, 11⟩

end Demo

namespace PyLib

theorem pySplit_ne_nil (s : PyStr) (sep : Char) : pySplit s sep ≠ [] := by
  cases s with
  | nil => simp [pySplit]
  | cons c cs =>
    simp only [pySplit]
    split
    · simp
    · split <;> simp

/-- Splitting distributes over concatenation through a separator. -/
theorem pySplit_append (a b : PyStr) (sep : Char) :
    pySplit (a ++ sep :: b) sep = pySplit a sep ++ pySplit b sep := by
  induction a with
  | nil => simp [pySplit]
  | cons c cs ih =>
    by_cases hc : c = sep
    · subst hc
      simp [pySplit, ih]
    · have h1 : pySplit (c :: (cs ++ sep :: b)) sep =
          match pySplit (cs ++ sep :: b) sep with
          | [] => [[c]]
          | h :: t => (c :: h) :: t := by
        simp [pySplit, hc]
      have h2 : pySplit (c :: cs) sep =
          match pySplit cs sep with
          | [] => [[c]]
          | h :: t => (c :: h) :: t := by
        simp [pySplit, hc]
      rw [List.cons_append, h1, h2, ih]
      rcases hs : pySplit cs sep with _ | ⟨h, t⟩
      · exact absurd hs (pySplit_ne_nil cs sep)
      · simp

end PyLib

namespace Tmpl

/-- Length bound on `dropWhile` results. -/
theorem length_dropWhile_le (p : Char → Bool) (l : PyStr) :
    (l.dropWhile p).length ≤ l.length :=
  (List.dropWhile_suffix p).length_le

end Tmpl

namespace Proc

/-- A successful `setText` stores the assigned text where `findText`
reads it back. -/
theorem findText_setText (k v : PyStr) :
    ∀ (st st' : ObjState), setText st k v = some st' → findText st' k = some v := by
  intro st
  induction st with
  | nil => intro st' h; simp [setText] at h
  | cons p rest ih =>
    intro st' h
    obtain ⟨a, t⟩ := p
    simp only [setText] at h
    by_cases hak : a = k
    · subst hak
      simp only [if_pos rfl] at h
      cases h
      simp [findText, Tmpl.lookupAssoc]
    · simp only [if_neg hak] at h
      cases hst : setText rest k v with
      | none => rw [hst] at h; cases h
      | some r =>
        rw [hst] at h
        cases h
        have := ih r hst
        simpa [findText, Tmpl.lookupAssoc, hak] using this

end Proc

namespace OsPath

/-- A list whose `getLast?` is known decomposes as a snoc. -/
theorem getLast?_ex : ∀ (l : PyStr) (c : Char), l.getLast? = some c → ∃ s, l = s ++ [c] := by
  intro l
  induction l with
  | nil => intro c h; cases h
  | cons a t ih =>
    intro c h
    cases t with
    | nil =>
      simp only [List.getLast?_singleton, Option.some.injEq] at h
      exact ⟨[], by simp [h]⟩
    | cons b t2 =>
      rw [List.getLast?_cons_cons] at h
      obtain ⟨s, hs⟩ := ih c h
      exact ⟨a :: s, by rw [List.cons_append, ← hs]⟩

/-- Joining a relative `b` onto `a` appends `b` after `sepExtend a`. -/
theorem pjoin_eq_sepExtend (a b : PyStr) (hb : b.head? ≠ some '/') :
    pjoin a b = sepExtend a ++ b := by
  simp only [pjoin, sepExtend]
  rw [if_neg hb]
  split_ifs with h
  · rfl
  · rw [List.append_assoc]
    rfl

theorem sepExtend_sepEnded (a : PyStr) : SepEnded (sepExtend a) := by
  simp only [sepExtend, SepEnded]
  split_ifs with h
  · rcases h with h | h
    · exact .inl h
    · exact .inr (getLast?_ex a '/' h)
  · exact .inr ⟨a, rfl⟩

theorem sepEnded_append (p q : PyStr) (hp : SepEnded p) (hq : SepEnded q) :
    SepEnded (p ++ q) := by
  rcases hq with rfl | ⟨s, rfl⟩
  · simpa using hp
  · exact .inr ⟨p ++ s, by rw [List.append_assoc]⟩

/-- The component loop is a left fold: processing a concatenation
processes the second part from the state left by the first. -/
theorem normComps_append (ini : Bool) (l1 l2 : List PyStr) :
    ∀ acc, normComps ini acc (l1 ++ l2) = normComps ini (normComps ini acc l1) l2 := by
  induction l1 with
  | nil => intro acc; rfl
  | cons c l1 ih =>
    intro acc
    simp only [List.cons_append, normComps]
    split_ifs <;> apply ih

/-- A component that is empty or `.` is skipped. -/
theorem normComps_cons_skip (ini : Bool) (acc : List PyStr) (comp : PyStr)
    (rest : List PyStr) (h : comp = [] ∨ comp = ['.']) :
    normComps ini acc (comp :: rest) = normComps ini acc rest := by
  rw [normComps, if_pos h]

/-- A component satisfying the keep condition is appended. -/
theorem normComps_cons_push (ini : Bool) (acc : List PyStr) (comp : PyStr)
    (rest : List PyStr) (h : ¬ (comp = [] ∨ comp = ['.']))
    (h2 : comp ≠ ['.', '.'] ∨ (¬ini ∧ acc = []) ∨ acc.getLastD [] = ['.', '.']) :
    normComps ini acc (comp :: rest) = normComps ini (acc ++ [comp]) rest := by
  rw [normComps, if_neg h, if_pos h2]

/-- A `..` with a poppable accumulator pops. -/
theorem normComps_cons_pop (ini : Bool) (acc : List PyStr) (comp : PyStr)
    (rest : List PyStr) (h : ¬ (comp = [] ∨ comp = ['.']))
    (h2 : ¬ (comp ≠ ['.', '.'] ∨ (¬ini ∧ acc = []) ∨ acc.getLastD [] = ['.', '.']))
    (h3 : acc ≠ []) :
    normComps ini acc (comp :: rest) = normComps ini acc.dropLast rest := by
  rw [normComps, if_neg h, if_neg h2, if_pos h3]

/-- From any accumulator state, the component sequence of
`./a/../a/file.txt` leaves the same state as that of `a/file.txt`:
the `.` is skipped and the `..` pops the `a` just pushed. -/
theorem normComps_c9_segments (ini : Bool) (acc : List PyStr) :
    normComps ini acc [['.'], ['a'], ['.', '.'], ['a'], "file.txt".data] =
      normComps ini acc [['a'], "file.txt".data] := by
  conv_lhs =>
    rw [normComps_cons_skip ini acc ['.'] _ (by simp)]
    rw [normComps_cons_push ini acc ['a'] _ (by simp) (by simp)]
    rw [normComps_cons_pop ini (acc ++ [['a']]) ['.', '.'] _ (by simp)
      (by simp [List.getLastD_concat]) (by simp)]
    rw [List.dropLast_concat]

/-- The initial-slash count of `s ++ '/' ++ t` does not depend on `t`
as long as `t` does not itself begin with a slash. -/
theorem initialSlashes_sep_append (s t1 t2 : PyStr)
    (h1 : t1.head? ≠ some '/') (h2 : t2.head? ≠ some '/') :
    initialSlashes (s ++ '/' :: t1) = initialSlashes (s ++ '/' :: t2) := by
  have key : ∀ t : PyStr, t.head? ≠ some '/' → List.isPrefixOf ['/'] t = false := by
    intro t ht
    cases t with
    | nil => rfl
    | cons u us =>
      have hu : u ≠ '/' := by
        intro h
        exact ht (by rw [h]; rfl)
      simp only [List.isPrefixOf, Bool.and_eq_false_iff, beq_eq_false_iff_ne, ne_eq]
      exact .inl fun hh => hu hh.symm
  rcases s with _ | ⟨c, s1⟩
  · simp [initialSlashes, List.isPrefixOf, key t1 h1, key t2 h2]
  · rcases s1 with _ | ⟨d, s2⟩
    · simp [initialSlashes, List.isPrefixOf, key t1 h1, key t2 h2]
    · rcases s2 with _ | ⟨e, s3⟩
      · simp [initialSlashes, List.isPrefixOf]
      · simp [initialSlashes, List.isPrefixOf]

/-- Through a separator, the two C9 filenames normalise to the same
path after any prefix. -/
theorem normpath_sep_append (s : PyStr) :
    normpath (s ++ '/' :: "./a/../a/file.txt".data) =
      normpath (s ++ '/' :: "a/file.txt".data) := by
  have hne1 : s ++ '/' :: "./a/../a/file.txt".data ≠ [] := by simp
  have hne2 : s ++ '/' :: "a/file.txt".data ≠ [] := by simp
  have hini := initialSlashes_sep_append s "./a/../a/file.txt".data
    "a/file.txt".data (by decide) (by decide)
  have h1 : PyLib.pySplit "./a/../a/file.txt".data '/' =
      [['.'], ['a'], ['.', '.'], ['a'], "file.txt".data] := by decide
  have h2 : PyLib.pySplit "a/file.txt".data '/' = [['a'], "file.txt".data] := by decide
  simp only [normpath, if_neg hne1, if_neg hne2]
  rw [PyLib.pySplit_append, PyLib.pySplit_append, hini, h1, h2,
    normComps_append, normComps_append, normComps_c9_segments]

/-- The two C9 filenames resolve to the same absolute path under any
workspace directory and any working directory. -/
theorem resolved_c9_eq (cwd tmp : PyStr) :
    abspath cwd (pjoin tmp "./a/../a/file.txt".data) =
      abspath cwd (pjoin tmp "a/file.txt".data) := by
  have key : ∀ q : PyStr, SepEnded q →
      normpath (q ++ "./a/../a/file.txt".data) =
        normpath (q ++ "a/file.txt".data) := by
    rintro q (rfl | ⟨s, rfl⟩)
    · decide
    · rw [List.append_assoc, List.append_assoc]
      exact normpath_sep_append s
  have hp1 := pjoin_eq_sepExtend tmp "./a/../a/file.txt".data (by decide)
  have hp2 := pjoin_eq_sepExtend tmp "a/file.txt".data (by decide)
  rw [hp1, hp2]
  have hJ := sepExtend_sepEnded tmp
  set J := sepExtend tmp with hJdef
  have habs : isabs (J ++ "./a/../a/file.txt".data) =
      isabs (J ++ "a/file.txt".data) := by
    rcases hJ with h | ⟨s, h⟩
    · rw [h]
      decide
    · rw [h, List.append_assoc, List.append_assoc]
      rcases s with _ | ⟨c, s1⟩ <;> simp [isabs]
  simp only [abspath]
  cases habs2 : isabs (J ++ "a/file.txt".data) with
  | true =>
    rw [habs2] at habs
    rw [if_pos habs, if_pos rfl]
    exact key J hJ
  | false =>
    rw [habs2] at habs
    rw [if_neg (by simp [habs]), if_neg (by simp)]
    have hh1 : (J ++ "./a/../a/file.txt".data).head? ≠ some '/' := by
      simpa [isabs] using habs
    have hh2 : (J ++ "a/file.txt".data).head? ≠ some '/' := by
      simpa [isabs] using habs2
    rw [pjoin_eq_sepExtend cwd _ hh1, pjoin_eq_sepExtend cwd _ hh2,
      ← List.append_assoc, ← List.append_assoc]
    exact key (sepExtend cwd ++ J) (sepEnded_append _ _ (sepExtend_sepEnded cwd) hJ)

end OsPath

namespace Tmpl

/-- The scanner on an empty text, at any fuel. -/
theorem ssf_nil (lookup : PyStr → Option PyStr) (f : Nat) :
    safeSubFuel lookup f [] = [] := by cases f <;> rfl

/-- A non-delimiter character is copied. -/
theorem ssf_other (lookup : PyStr → Option PyStr) (f : Nat) (c : Char) (cs : PyStr)
    (h : c ≠ '@') :
    safeSubFuel lookup (f + 1) (c :: cs) = c :: safeSubFuel lookup f cs := by
  conv_lhs => rw [safeSubFuel.eq_def]
  simp only []
  split_ifs <;> first | rfl | simp_all

/-- A single `@` at the end of the text is copied. -/
theorem ssf_single_at (lookup : PyStr → Option PyStr) (f : Nat) :
    safeSubFuel lookup (f + 1) ['@'] = ['@'] := rfl

/-- An `@` not followed by another `@` is copied. -/
theorem ssf_at_other (lookup : PyStr → Option PyStr) (f : Nat) (d : Char) (ds : PyStr)
    (h : d ≠ '@') :
    safeSubFuel lookup (f + 1) ('@' :: d :: ds) = '@' :: safeSubFuel lookup f (d :: ds) := by
  conv_lhs => rw [safeSubFuel.eq_def]
  simp only []
  split_ifs <;> rfl

/-- A trailing `@@` is the invalid group. -/
theorem ssf_delim_end (lookup : PyStr → Option PyStr) (f : Nat) :
    safeSubFuel lookup (f + 1) ['@', '@'] = ['@', '@'] := rfl

/-- A trailing `@@@` is invalid followed by a lone `@`. -/
theorem ssf_escaped_end (lookup : PyStr → Option PyStr) (f : Nat) :
    safeSubFuel lookup (f + 1) ['@', '@', '@'] = '@' :: '@' :: safeSubFuel lookup f ['@'] := rfl

/-- `@@@@` is the escaped group. -/
theorem ssf_escaped (lookup : PyStr → Option PyStr) (f : Nat) (fs : PyStr) :
    safeSubFuel lookup (f + 1) ('@' :: '@' :: '@' :: '@' :: fs) =
      '@' :: '@' :: safeSubFuel lookup f fs := rfl

/-- `@@@` followed by a non-`@` is the invalid group. -/
theorem ssf_at3_other (lookup : PyStr → Option PyStr) (f : Nat) (x : Char) (xs : PyStr)
    (h : x ≠ '@') :
    safeSubFuel lookup (f + 1) ('@' :: '@' :: '@' :: x :: xs) =
      '@' :: '@' :: safeSubFuel lookup f ('@' :: x :: xs) := by
  conv_lhs => rw [safeSubFuel.eq_def]
  simp only []
  split_ifs <;> rfl

/-- A trailing `@@\x7b` is the invalid group. -/
theorem ssf_braced_end (lookup : PyStr → Option PyStr) (f : Nat) :
    safeSubFuel lookup (f + 1) ['@', '@', '{'] = '@' :: '@' :: safeSubFuel lookup f ['{'] := rfl

/-- A braced placeholder with a valid identifier start. -/
theorem ssf_braced (lookup : PyStr → Option PyStr) (f : Nat) (g : Char) (gs : PyStr)
    (hg : isIdentStart g = true) :
    safeSubFuel lookup (f + 1) ('@' :: '@' :: '{' :: g :: gs) =
      if (gs.dropWhile isIdentChar).head? = some '}' then
        match lookup (g :: gs.takeWhile isIdentChar) with
        | some v => v ++ safeSubFuel lookup f (gs.dropWhile isIdentChar).tail
        | none => '@' :: '@' :: '{' :: ((g :: gs.takeWhile isIdentChar) ++
            '}' :: safeSubFuel lookup f (gs.dropWhile isIdentChar).tail)
      else '@' :: '@' :: safeSubFuel lookup f ('{' :: g :: gs) := by
  conv_lhs => rw [safeSubFuel.eq_def]
  simp only []
  split_ifs <;> first | rfl | simp_all

/-- A `@@\x7b` whose next character cannot start an identifier is the
invalid group. -/
theorem ssf_braced_bad (lookup : PyStr → Option PyStr) (f : Nat) (g : Char) (gs : PyStr)
    (hg : isIdentStart g = false) :
    safeSubFuel lookup (f + 1) ('@' :: '@' :: '{' :: g :: gs) =
      '@' :: '@' :: safeSubFuel lookup f ('{' :: g :: gs) := by
  conv_lhs => rw [safeSubFuel.eq_def]
  simp only []
  split_ifs <;> first | rfl | simp_all

/-- A delimiter followed by anything else is the invalid group. -/
theorem ssf_invalid (lookup : PyStr → Option PyStr) (f : Nat) (e : Char) (es : PyStr)
    (h1 : e ≠ '@') (h2 : e ≠ '{') (h3 : isIdentStart e = false) :
    safeSubFuel lookup (f + 1) ('@' :: '@' :: e :: es) =
      '@' :: '@' :: safeSubFuel lookup f (e :: es) := by
  conv_lhs => rw [safeSubFuel.eq_def]
  simp only []
  split_ifs <;> first | rfl | simp_all

/-- One scanner step on a delimiter followed by an identifier character:
the named group fires. -/
theorem safeSubFuel_named (lookup : PyStr → Option PyStr) (fuel : Nat) (c : Char)
    (cs : PyStr) (hc : isIdentStart c = true) :
    safeSubFuel lookup (fuel + 1) ('@' :: '@' :: c :: cs) =
      match lookup (c :: cs.takeWhile isIdentChar) with
      | some v => v ++ safeSubFuel lookup fuel (cs.dropWhile isIdentChar)
      | none =>
        '@' :: '@' :: ((c :: cs.takeWhile isIdentChar) ++
          safeSubFuel lookup fuel (cs.dropWhile isIdentChar)) := by
  have hat : c ≠ '@' := by rintro rfl; exact absurd hc (by decide)
  have hbr : c ≠ '{' := by rintro rfl; exact absurd hc (by decide)
  conv_lhs => rw [safeSubFuel.eq_def]
  simp only [if_pos rfl, if_neg hat, if_neg hbr, if_pos hc, if_true]

/-- The scanner result does not depend on the fuel once the fuel is at
least the remaining text length: every step consumes at least one
character.  In particular the out-of-fuel branch of `safeSubFuel` is
unreachable from the `safeSub` wrapper, which supplies exactly the text
length. -/
theorem safeSubFuel_congr (lookup : PyStr → Option PyStr) :
    ∀ f g s, s.length ≤ f → s.length ≤ g →
      safeSubFuel lookup f s = safeSubFuel lookup g s := by
  intro f
  induction f with
  | zero =>
    intro g s hf _
    have hs : s = [] := List.eq_nil_of_length_eq_zero (Nat.le_zero.mp hf)
    subst hs
    rw [ssf_nil, ssf_nil]
  | succ f ih =>
    intro g s hf hg
    cases s with
    | nil => rw [ssf_nil, ssf_nil]
    | cons c cs =>
      cases g with
      | zero => simp at hg
      | succ g =>
        simp only [List.length_cons] at hf hg
        by_cases hc : c = '@'
        · subst hc
          cases cs with
          | nil => rw [ssf_single_at, ssf_single_at]
          | cons d ds =>
            simp only [List.length_cons] at hf hg
            by_cases hd : d = '@'
            · subst hd
              cases ds with
              | nil => rw [ssf_delim_end, ssf_delim_end]
              | cons e es =>
                simp only [List.length_cons] at hf hg
                by_cases he : e = '@'
                · subst he
                  cases es with
                  | nil =>
                    rw [ssf_escaped_end, ssf_escaped_end,
                      ih g ['@'] (by simp; omega) (by simp; omega)]
                  | cons x xs =>
                    simp only [List.length_cons] at hf hg
                    by_cases hx : x = '@'
                    · subst hx
                      rw [ssf_escaped, ssf_escaped, ih g xs (by omega) (by omega)]
                    · rw [ssf_at3_other _ _ _ _ hx, ssf_at3_other _ _ _ _ hx,
                        ih g ('@' :: x :: xs) (by simp; omega) (by simp; omega)]
                · by_cases hbr : e = '{'
                  · subst hbr
                    cases es with
                    | nil =>
                      rw [ssf_braced_end, ssf_braced_end,
                        ih g ['{'] (by simp; omega) (by simp; omega)]
                    | cons gg gs =>
                      simp only [List.length_cons] at hf hg
                      by_cases hgg : isIdentStart gg = true
                      · rw [ssf_braced _ _ _ _ hgg, ssf_braced _ _ _ _ hgg]
                        have hb1 := length_dropWhile_le isIdentChar gs
                        have hb2 := List.length_tail (List.dropWhile isIdentChar gs)
                        split_ifs with hh
                        · have hrec := ih g (List.dropWhile isIdentChar gs).tail
                            (by omega) (by omega)
                          simp only [hrec]
                        · rw [ih g ('{' :: gg :: gs) (by simp; omega) (by simp; omega)]
                      · rw [ssf_braced_bad _ _ _ _ (by simpa using hgg),
                          ssf_braced_bad _ _ _ _ (by simpa using hgg),
                          ih g ('{' :: gg :: gs) (by simp; omega) (by simp; omega)]
                  · by_cases hid : isIdentStart e = true
                    · rw [safeSubFuel_named _ _ _ _ hid, safeSubFuel_named _ _ _ _ hid]
                      have hb1 := length_dropWhile_le isIdentChar es
                      have hrec := ih g (List.dropWhile isIdentChar es)
                        (by omega) (by omega)
                      simp only [hrec]
                    · rw [ssf_invalid _ _ _ _ he hbr (by simpa using hid),
                        ssf_invalid _ _ _ _ he hbr (by simpa using hid),
                        ih g (e :: es) (by simp; omega) (by simp; omega)]
            · rw [ssf_at_other _ _ _ _ hd, ssf_at_other _ _ _ _ hd,
                ih g (d :: ds) (by simp; omega) (by simp; omega)]
        · rw [ssf_other _ _ _ _ hc, ssf_other _ _ _ _ hc,
            ih g cs (by omega) (by omega)]

/-- The wrapper evaluates the scanner at any sufficient fuel. -/
theorem safeSub_eq_of_le (lookup : PyStr → Option PyStr) (f : Nat) (s : PyStr)
    (h : s.length ≤ f) :
    safeSubFuel lookup f s = safeSub lookup s :=
  safeSubFuel_congr lookup f s.length s h le_rfl

end Tmpl

/-- C7: when the same identifier is a key of both the positional mapping
and the extra keyword arguments, `template_file` substitutes the keyword
value: the combined mapping built by `safe_substitute(data, **kwargs)`
consults the keyword arguments first. -/
theorem c7_extra_overrides_mapping (data extra : List (PyStr × PyStr)) (k v w : PyStr)
    (hk : Tmpl.isIdentName k = true)
    (hextra : Tmpl.lookupAssoc extra k = some v)
    (hdata : Tmpl.lookupAssoc data k = some w) :
    (Tmpl.template_file ⟨'@' :: '@' :: k, 0⟩ data extra).1 = v := by
  rcases k with _ | ⟨c, cs⟩
  · simp [Tmpl.isIdentName] at hk
  · simp only [Tmpl.isIdentName, Bool.and_eq_true, List.all_eq_true] at hk
    obtain ⟨hc, hall⟩ := hk
    have htake : cs.takeWhile Tmpl.isIdentChar = cs :=
      List.takeWhile_eq_self_iff.mpr hall
    have hdrop : cs.dropWhile Tmpl.isIdentChar = [] :=
      List.dropWhile_eq_nil_iff.mpr hall
    have hcomb : Tmpl.combinedLookup data extra (c :: cs) = some v := by
      simp [Tmpl.combinedLookup, hextra]
    simp only [Tmpl.template_file, hRead, List.drop_zero, Tmpl.safeSub, List.length_cons]
    rw [Tmpl.safeSubFuel_named _ _ _ _ hc, htake, hdrop, hcomb]
    simp [Tmpl.safeSubFuel]

/-- Witness for C7 at the key `USER`, present in both mappings: the
keyword value `override` is substituted. -/
theorem c7_extra_overrides_mapping_witness :
    Tmpl.isIdentName "USER".data = true ∧
    Tmpl.lookupAssoc [("USER".data, "override".data)] "USER".data =
      some "override".data ∧
    Tmpl.lookupAssoc [("USER".data, "mapped".data)] "USER".data =
      some "mapped".data ∧
    (Tmpl.template_file ⟨'@' :: '@' :: "USER".data, 0⟩
        [("USER".data, "mapped".data)] [("USER".data, "override".data)]).1 =
      "override".data :=
  ⟨by decide, by decide, by decide,
   c7_extra_overrides_mapping [("USER".data, "mapped".data)]
     [("USER".data, "override".data)] "USER".data "override".data "mapped".data
     (by decide) (by decide) (by decide)⟩

/-- C8: while loading the remote object during sync-object construction,
a `JSSGetError` with HTTP status 404 is raised as `TargetNotFoundError`,
and one with any other status propagates unchanged. -/
theorem c8_load_target_404 (w : Vcs.GitWorld) (st : Vcs.RepoState)
    (jssGet : PyStr → PyStr → Except Nat Proc.ObjState)
    (sf : PyStr) (target : Option PyStr) (ttype : PyStr) (s : Nat)
    (hget : jssGet ttype ((PyLib.pyOr target (some (OsPath.basename sf))).getD []) =
      .error s) :
    (s = 404 →
      Proc.jssObjectInit w st jssGet sf target ttype = .error .targetNotFound) ∧
    (s ≠ 404 →
      Proc.jssObjectInit w st jssGet sf target ttype = .error (.jssGetError s)) := by
  constructor
  · rintro rfl
    simp [Proc.jssObjectInit, hget]
  · intro hne
    simp [Proc.jssObjectInit, hget, hne]

/-- Witness for C8: a client answering 404 yields `TargetNotFoundError`;
one answering 500 re-raises the `JSSGetError` with status 500. -/
theorem c8_load_target_404_witness :
    Proc.jssObjectInit Demo.demoWorld Demo.demoRepo (fun _ _ => .error 404)
        "dir/script.sh".data none "Script".data = .error .targetNotFound ∧
    Proc.jssObjectInit Demo.demoWorld Demo.demoRepo (fun _ _ => .error 500)
        "dir/script.sh".data none "Script".data = .error (.jssGetError 500) :=
  ⟨(c8_load_target_404 Demo.demoWorld Demo.demoRepo (fun _ _ => .error 404)
      "dir/script.sh".data none "Script".data 404 rfl).1 rfl,
   (c8_load_target_404 Demo.demoWorld Demo.demoRepo (fun _ _ => .error 500)
      "dir/script.sh".data none "Script".data 500 rfl).2 (by decide)⟩

/-- C4: remote discovery in `GitRepo.__init__` — for any requested ref,
an empty `git remote` listing fails with `NoRemoteError`, a listing with
more than one line fails with `TooManyRemotesError`, and with exactly
one (non-empty) remote the construction proceeds past remote discovery
(the `git config` lookup of the remote URL runs). -/
theorem c4_remote_count_errors (tag branch : Option PyStr) (out : PyStr)
    (w : Vcs.GitWorld)
    (htb : PyLib.strOptTruthy tag = true ∨ PyLib.strOptTruthy branch = true)
    (hout : w.gitRemoteOut = .ok out) :
    (1 < (PyLib.pySplit (PyLib.pyStrip out) '\n').length →
      (Vcs.gitRepoInit tag branch w).1 = .error .tooManyRemotes) ∧
    (PyLib.pySplit (PyLib.pyStrip out) '\n' = [[]] →
      (Vcs.gitRepoInit tag branch w).1 = .error .noRemote) ∧
    ((PyLib.pySplit (PyLib.pyStrip out) '\n').length = 1 →
      PyLib.pySplit (PyLib.pyStrip out) '\n' ≠ [[]] →
      Vcs.GitEvent.gitConfig ∈ (Vcs.gitRepoInit tag branch w).2) := by
  have hg : ¬ ¬ (PyLib.strOptTruthy tag = true ∨ PyLib.strOptTruthy branch = true) :=
    not_not_intro htb
  refine ⟨?_, ?_, ?_⟩
  · intro hlen
    simp only [Vcs.gitRepoInit, Vcs.findRemoteName, hout, if_neg hg, if_pos hlen]
  · intro hnil
    have hlen : ¬ 1 < (PyLib.pySplit (PyLib.pyStrip out) '\n').length := by
      rw [hnil]; decide
    simp only [Vcs.gitRepoInit, Vcs.findRemoteName, hout, if_neg hg, if_neg hlen, hnil]
    simp
  · intro hlen hnil
    obtain ⟨r, hr⟩ := List.length_eq_one.mp hlen
    have hrne : r ≠ [] := by
      intro h
      exact hnil (by rw [hr, h])
    have hnlt : ¬ 1 < (PyLib.pySplit (PyLib.pyStrip out) '\n').length := by
      rw [hlen]
      decide
    have hhead : ¬ ((PyLib.pySplit (PyLib.pyStrip out) '\n').length < 1 ∨
        (PyLib.pySplit (PyLib.pyStrip out) '\n').headD [] = []) := by
      rw [hr]
      simp [hrne]
    simp only [Vcs.gitRepoInit, Vcs.findRemoteName, hout, if_neg hg, if_neg hnlt,
      if_neg hhead]
    split
    · split <;> simp
    · simp

/-- Witness for C4: two remotes yield `TooManyRemotesError`, an empty
listing yields `NoRemoteError`, and with the single remote `origin` the
`git config` step runs. -/
theorem c4_remote_count_errors_witness :
    (Vcs.gitRepoInit (some "v1".data) none Demo.twoRemotesWorld).1 =
      .error .tooManyRemotes ∧
    (Vcs.gitRepoInit (some "v1".data) none Demo.noRemoteWorld).1 =
      .error .noRemote ∧
    Vcs.GitEvent.gitConfig ∈ (Vcs.gitRepoInit (some "v1".data) none Demo.demoWorld).2 :=
  ⟨(c4_remote_count_errors (some "v1".data) none "origin\nupstream\n".data
      Demo.twoRemotesWorld (by decide) rfl).1 (by decide),
   (c4_remote_count_errors (some "v1".data) none [] Demo.noRemoteWorld
      (by decide) rfl).2.1 (by decide),
   (c4_remote_count_errors (some "v1".data) none "origin\n".data Demo.demoWorld
      (by decide) rfl).2.2 (by decide) (by decide)⟩

/-- C5: when the requested ref is not among the short ref names parsed
from the `ls-remote --refs` output, `GitRepo.__init__` raises
`RefNotFoundError` and the clone command is never invoked. -/
theorem c5_missing_ref_no_clone (tag branch : Option PyStr) (out r : PyStr)
    (w : Vcs.GitWorld)
    (htb : PyLib.strOptTruthy tag = true ∨ PyLib.strOptTruthy branch = true)
    (hout : w.gitRemoteOut = .ok out)
    (hone : PyLib.pySplit (PyLib.pyStrip out) '\n' = [r])
    (hr : r ≠ [])
    (hmiss : ((PyLib.pyOr tag branch).getD []) ∉ Vcs.refsOf w.lsRemoteOut) :
    (Vcs.gitRepoInit tag branch w).1 = .error .refNotFound ∧
    Vcs.GitEvent.clone ∉ (Vcs.gitRepoInit tag branch w).2 := by
  have hg : ¬ ¬ (PyLib.strOptTruthy tag = true ∨ PyLib.strOptTruthy branch = true) :=
    not_not_intro htb
  have hnlt : ¬ 1 < (PyLib.pySplit (PyLib.pyStrip out) '\n').length := by
    simp [hone]
  have hhead : ¬ ((PyLib.pySplit (PyLib.pyStrip out) '\n').length < 1 ∨
      (PyLib.pySplit (PyLib.pyStrip out) '\n').headD [] = []) := by
    rw [hone]
    simp [hr]
  have href : ¬ Vcs.hasRefOnRemote w ((PyLib.pyOr tag branch).getD []) = true := by
    simpa [Vcs.hasRefOnRemote] using hmiss
  constructor
  · simp only [Vcs.gitRepoInit, Vcs.findRemoteName, hout, if_neg hg, if_neg hnlt,
      if_neg hhead, if_neg href]
  · simp only [Vcs.gitRepoInit, Vcs.findRemoteName, hout, if_neg hg, if_neg hnlt,
      if_neg hhead, if_neg href]
    decide

/-- Witness for C5: requesting the absent ref `nope` on the demo world
fails with `RefNotFoundError` and no clone event appears in the trace. -/
theorem c5_missing_ref_no_clone_witness :
    (Vcs.gitRepoInit (some "nope".data) none Demo.demoWorld).1 =
      .error .refNotFound ∧
    Vcs.GitEvent.clone ∉ (Vcs.gitRepoInit (some "nope".data) none Demo.demoWorld).2 :=
  c5_missing_ref_no_clone (some "nope".data) none "origin\n".data "origin".data
    Demo.demoWorld (by decide) rfl (by decide) (by decide) (by decide)

/-- C6: `template_file` over the text `@@a-@@b-@@unknown` with mapping
a ↦ "X", b ↦ "Y" returns `X-Y-@@unknown`: each placeholder whose
identifier is a key of the mapping is replaced by its value, and the
placeholder with the unknown identifier is left verbatim; no error is
raised (the scanner is total). -/
theorem c6_template_roundtrip :
    (Tmpl.template_file ⟨"@@a-@@b-@@unknown".data, 0⟩
        [("a".data, "X".data), ("b".data, "Y".data)] []).1 = "X-Y-@@unknown".data := by
  decide

/-- C2: evaluating `GitRepo.__init__` at the failing input
tag = "v1", branch = "master" on a well-behaved world: construction
succeeds and returns a state with both `tag` and `branch` set (and
`ref` taken from the tag), instead of raising an error as the claim and
the constructor's own docstring require.  With neither argument it does
raise `ParameterError`. -/
theorem c2_both_refs_accepted :
    (Vcs.gitRepoInit (some "v1".data) (some "master".data) Demo.demoWorld).1 =
      .ok { tag := some "v1".data, branch := some "master".data, ref := "v1".data,
            remoteName := "origin".data, remoteUrl := "https://example.com/repo".data,
            tmpDir := "/tmp/git2jss".data } ∧
    (Vcs.gitRepoInit none none Demo.demoWorld).1 = .error .parameterError := by
  decide

/-- C3: evaluating `GitRepo.__init__` on a world where remote discovery
fails with an error text that does not contain `Not a git repository`
(its `find` is `-1`, which is truthy in Python): the code still raises
`NotAGitRepoError`, contradicting the claim that such failures are not
reported as `NotAGitRepoError`. -/
theorem c3_misclassified_discovery_failure :
    PyLib.pyFind "fatal: bad config line 1 in file .git/config".data
        "Not a git repository".data = -1 ∧
    (Vcs.gitRepoInit (some "v1".data) none Demo.otherFailureWorld).1 =
      .error .notAGitRepo := by
  decide

/-- C1: counterexample — on a fixed world (unchanged repository state),
two successive `ComputerExtensionAttribute.update(True)` calls on the
same loaded object succeed but write different Mac script payloads: the
first call exhausts the source file handle, so the second writes the
empty string. -/
theorem c1_second_update_differs :
    (let r1 := Proc.ceaUpdate Demo.demoWorld Demo.demoRepo "admin".data
        "script.sh".data Demo.demoCeaObj Demo.demoHandle true
     let r2 := Proc.ceaUpdate Demo.demoWorld Demo.demoRepo "admin".data
        "script.sh".data r1.1 r1.2.1 true
     r1.2.2 = none ∧ r2.2.2 = none ∧
       Proc.findText r2.1 Proc.ceaScriptKey ≠ Proc.findText r1.1 Proc.ceaScriptKey) := by
  decide

/-- C1 (amended): two successive successful
`ComputerExtensionAttribute.update` calls on the same loaded object
under the same repository world do not produce identical payloads in
general: the second call always writes the empty payload (the source
handle was exhausted by the first call), so the two outgoing payloads
agree exactly when the first call's payload is itself empty. -/
theorem c1_amended_second_update_empty (w : Vcs.GitWorld) (st : Vcs.RepoState)
    (user sourceName : PyStr) (obj obj1 obj2 : Proc.ObjState)
    (h h1 h2 : Handle) (b : Bool)
    (hcall1 : Proc.ceaUpdate w st user sourceName obj h b = (obj1, h1, none))
    (hcall2 : Proc.ceaUpdate w st user sourceName obj1 h1 b = (obj2, h2, none)) :
    Proc.findText obj2 Proc.ceaScriptKey = some [] ∧
    (Proc.findText obj2 Proc.ceaScriptKey = Proc.findText obj1 Proc.ceaScriptKey ↔
      Proc.findText obj1 Proc.ceaScriptKey = some []) := by
  cases hfi : Vcs.file_info w st sourceName with
  | error e =>
    simp only [Proc.ceaUpdate, hfi] at hcall1
    simp at hcall1
  | ok info =>
    simp only [Proc.ceaUpdate, hfi] at hcall1 hcall2
    cases hset1 : Proc.setText obj "description".data
        ((Tmpl.lookupAssoc info "LOG".data).getD []) with
    | none =>
      rw [hset1] at hcall1
      simp at hcall1
    | some od =>
      rw [hset1] at hcall1
      simp only [hRead] at hcall1
      cases hset2 : Proc.setText od Proc.ceaScriptKey
          (if b then
            Tmpl.safeSub (Tmpl.combinedLookup info [("USER".data, user)])
              (h.content.drop h.pos)
          else h.content.drop h.pos) with
      | none =>
        rw [hset2] at hcall1
        simp at hcall1
      | some o2 =>
        rw [hset2] at hcall1
        simp only [Prod.mk.injEq, and_true] at hcall1
        obtain ⟨rfl, rfl⟩ := hcall1
        cases hset1b : Proc.setText o2 "description".data
            ((Tmpl.lookupAssoc info "LOG".data).getD []) with
        | none =>
          rw [hset1b] at hcall2
          simp at hcall2
        | some od2 =>
          rw [hset1b] at hcall2
          simp only [hRead, List.drop_length] at hcall2
          have houtput :
              (if b then
                Tmpl.safeSub (Tmpl.combinedLookup info [("USER".data, user)]) []
              else ([] : PyStr)) = [] := by
            cases b <;> simp [Tmpl.safeSub, Tmpl.safeSubFuel]
          rw [houtput] at hcall2
          cases hset2b : Proc.setText od2 Proc.ceaScriptKey [] with
          | none =>
            rw [hset2b] at hcall2
            simp at hcall2
          | some o3 =>
            rw [hset2b] at hcall2
            simp only [Prod.mk.injEq, and_true] at hcall2
            obtain ⟨rfl, rfl⟩ := hcall2
            have hfind2 : Proc.findText o3 Proc.ceaScriptKey = some [] :=
              Proc.findText_setText _ _ _ _ hset2b
            have hfind1 := Proc.findText_setText _ _ _ _ hset2
            rw [hfind2, hfind1]
            exact ⟨rfl, eq_comm⟩

/-- Witness for the amended C1 at the demo inputs: two successful calls,
second payload empty and different from the first. -/
theorem c1_amended_second_update_empty_witness :
    Proc.ceaUpdate Demo.demoWorld Demo.demoRepo "admin".data "script.sh".data
        Demo.demoCeaObj Demo.demoHandle true =
      (Demo.demoCeaObj1, Demo.demoExhaustedHandle, none) ∧
    Proc.ceaUpdate Demo.demoWorld Demo.demoRepo "admin".data "script.sh".data
        Demo.demoCeaObj1 Demo.demoExhaustedHandle true =
      (Demo.demoCeaObj2, Demo.demoExhaustedHandle, none) ∧
    (Proc.findText Demo.demoCeaObj2 Proc.ceaScriptKey = some [] ∧
     (Proc.findText Demo.demoCeaObj2 Proc.ceaScriptKey =
        Proc.findText Demo.demoCeaObj1 Proc.ceaScriptKey ↔
      Proc.findText Demo.demoCeaObj1 Proc.ceaScriptKey = some [])) :=
  ⟨by decide, by decide,
   c1_amended_second_update_empty Demo.demoWorld Demo.demoRepo "admin".data
     "script.sh".data Demo.demoCeaObj Demo.demoCeaObj1 Demo.demoCeaObj2
     Demo.demoHandle Demo.demoExhaustedHandle Demo.demoExhaustedHandle true
     (by decide) (by decide)⟩

/-- C9: `has_file` and `path_to_file` resolve `.` and `..` segments
before lookup: for every working directory, workspace directory and
filesystem, the inputs `./a/../a/file.txt` and `a/file.txt` give the
same `has_file` answer and the same `path_to_file` result (in
particular, the same absolute path when the file exists). -/
theorem c9_dot_segments_resolved (cwd tmp : PyStr) (fs : PyStr → Bool) :
    Vcs.has_file cwd fs tmp "./a/../a/file.txt".data =
      Vcs.has_file cwd fs tmp "a/file.txt".data ∧
    Vcs.path_to_file cwd fs tmp "./a/../a/file.txt".data =
      Vcs.path_to_file cwd fs tmp "a/file.txt".data := by
  have h := OsPath.resolved_c9_eq cwd tmp
  constructor
  · simp only [Vcs.has_file, h]
  · simp only [Vcs.path_to_file, Vcs.has_file, h]

/-- C10: file lookups are not confined to the workspace: an absolute
filename makes `os.path.join` discard the workspace prefix entirely, a
filename with enough `..` segments resolves above the workspace, and
`has_file` / `path_to_file` / `get_file` then consult that outside
location rather than failing. -/
theorem c10_lookup_escapes_workspace :
    OsPath.abspath "/home/user".data
        (OsPath.pjoin "/tmp/work".data "/etc/passwd".data) = "/etc/passwd".data ∧
    OsPath.abspath "/home/user".data
        (OsPath.pjoin "/tmp/work".data "../../etc/passwd".data) = "/etc/passwd".data ∧
    List.isPrefixOf "/tmp/work".data "/etc/passwd".data = false ∧
    (∀ fs : PyStr → Bool,
      Vcs.has_file "/home/user".data fs "/tmp/work".data "/etc/passwd".data =
        fs "/etc/passwd".data) ∧
    Vcs.path_to_file "/home/user".data (fun _ => true) "/tmp/work".data
        "../../etc/passwd".data = .ok "/etc/passwd".data ∧
    Vcs.get_file "/home/user".data (fun _ => true)
        (fun p => if p = "/etc/passwd".data then "secret".data else [])
        "/tmp/work".data "/etc/passwd".data = .ok ⟨"secret".data, 0⟩ := by
  refine ⟨by decide, by decide, by decide, ?_, by decide, by decide⟩
  intro fs
  have h : OsPath.abspath "/home/user".data
      (OsPath.pjoin "/tmp/work".data "/etc/passwd".data) = "/etc/passwd".data := by
    decide
  simp only [Vcs.has_file, h]
